import Mathlib

/-!
Shallow embedding of the pyemit event bus (src/pyemit/emit.py).

The module-level globals of emit.py (`_registry`, `_started`, `_engine`,
`_heart_beat`, `_dsn`, `_start_server`, `_pub_conn`, `_sub_conn`,
`__rpc_calls__`) are collected into one explicit state record `EmitState`;
every operation of the source becomes a pure state transformer.  Pickle is
modelled by an injective byte encoding `encodeVal` with partial inverse
`decodeVal` (pickle.loads can fail, hence `Option`).  Listener tasks spawned
by `asyncio.create_task(_listen(event))` are recorded in the `listeners`
field (one entry per spawned task); handler invocations performed by the
listener loop are recorded in the `calls` trace.  Redis publishes are
recorded in the `published` trace (the broker is an external collaborator
assumed reliable); a close of a redis connection or subscription can fail,
which is modelled by boolean oracles passed to `stop`.
-/

set_option autoImplicit false

namespace PyEmit

universe u v

/-- Lookup in an association list (Python dict lookup, first match). -/
def lookupA {α : Type u} {β : Type v} [DecidableEq α] (k : α) : List (α × β) → Option β
  | [] => none
  | (k', b) :: rest => if k' = k then some b else lookupA k rest

/-- Update or insert in an association list (Python dict assignment). -/
def setA {α : Type u} {β : Type v} [DecidableEq α] (k : α) (b : β) : List (α × β) → List (α × β)
  | [] => [(k, b)]
  | (k', b') :: rest => if k' = k then (k, b) :: rest else (k', b') :: setA k b rest

theorem lookupA_setA {α : Type u} {β : Type v} [DecidableEq α] (k k' : α) (b : β)
    (l : List (α × β)) :
    lookupA k' (setA k b l) = if k' = k then some b else lookupA k' l := by
  induction l with
  | nil =>
    by_cases h : k' = k
    · subst h
      simp [setA, lookupA]
    · have h2 : ¬k = k' := fun hh => h hh.symm
      simp [setA, lookupA, h, h2]
  | cons hd tl ih =>
    obtain ⟨k₀, b₀⟩ := hd
    by_cases h0 : k₀ = k
    · subst h0
      by_cases h : k' = k₀
      · subst h
        simp [setA, lookupA]
      · have h2 : ¬k₀ = k' := fun hh => h hh.symm
        simp [setA, lookupA, h, h2]
    · by_cases h1 : k₀ = k'
      · subst h1
        simp [setA, lookupA, h0]
      · simp [setA, lookupA, h0, h1, ih]

theorem setA_self {α : Type u} {β : Type v} [DecidableEq α] (k : α) (b : β)
    (l : List (α × β)) (h : lookupA k l = some b) : setA k b l = l := by
  induction l with
  | nil => simp [lookupA] at h
  | cons hd tl ih =>
    obtain ⟨k₀, b₀⟩ := hd
    by_cases h0 : k₀ = k
    · subst h0
      simp [lookupA] at h
      simp [setA, h]
    · simp [lookupA, h0] at h
      simp [setA, h0, ih h]

/-- emit.py: `class Engine(IntEnum): IN_PROCESS = 0; REDIS = 1`. -/
inductive Engine where
  | inProcess
  | redis
deriving DecidableEq, Repr

/-- The channel object stored under the "queue" key of a registry entry:
either an `asyncio.Queue` of raw byte messages (in-process engine) or an
aioredis `PubSub` subscription handle (redis engine). -/
inductive Channel where
  | localQueue (msgs : List (List Nat))
  | pubsub
deriving DecidableEq, Repr

/-- One `_registry` entry: `{"queue": ..., "handlers": handlers}`.
Handlers are opaque callables, modelled by numeric ids; the Python `set`
is modelled as a duplicate-free list (insertion order).  The "queue" dict
key may be absent (`none`), present with value `None` (`some none` — the
state stop leaves behind), or present with a channel (`some (some c)`);
the source distinguishes absence from `None` in `stop` via
`if "queue" in binding`. -/
structure Binding where
  handlers : List Nat
  queue : Option (Option Channel)
deriving DecidableEq, Repr

/-- Python truthy/None-coalescing read `item.get("queue")`: both an absent
key and an explicit `None` read as `None`. -/
def Binding.getQueue (b : Binding) : Option Channel :=
  b.queue.getD none

/-- Payload values handed to `emit` / produced by `pickle.loads`.
`vbytes` is the `isinstance(message, bytes)` case; `vhb t` models the
heartbeat dict `{"msg": "heartbeat", "time": t}`; `vremote sn t pl` models
a pickled RPC request object carrying a serial number, a timeout and an
opaque payload. -/
inductive Value where
  | vnone
  | vnat (n : Nat)
  | vbytes (b : List Nat)
  | vhb (t : Nat)
  | vremote (sn : Nat) (timeout : Nat) (pl : List Nat)
deriving DecidableEq, Repr

/-- Python `isinstance(message, bytes)`. -/
def Value.isBytes : Value → Bool
  | .vbytes _ => true
  | _ => false

/-- Model of `pickle.dumps(v, protocol=4)`: an injective tagged byte
encoding. -/
def encodeVal : Value → List Nat
  | .vnone => [0]
  | .vnat n => [1, n]
  | .vbytes b => 2 :: b.length :: b
  | .vhb t => [3, t]
  | .vremote sn t pl => 4 :: sn :: t :: pl.length :: pl

/-- Model of `pickle.loads`: partial inverse of `encodeVal`; `none` is the
unpickling exception. -/
def decodeVal : List Nat → Option Value
  | [0] => some .vnone
  | [1, n] => some (.vnat n)
  | 2 :: len :: rest => if rest.length = len then some (.vbytes rest) else none
  | [3, t] => some (.vhb t)
  | 4 :: sn :: t :: len :: rest =>
      if rest.length = len then some (.vremote sn t rest) else none
  | _ => none

theorem decodeVal_encodeVal (v : Value) : decodeVal (encodeVal v) = some v := by
  cases v <;> simp [encodeVal, decodeVal]

/-- emit.py line 246: `if not isinstance(message, bytes): message =
pickle.dumps(message, protocol=4)` — bytes are passed through raw. -/
def toWire (v : Value) : List Nat :=
  match v with
  | .vbytes b => b
  | v => encodeVal v

theorem toWire_of_not_bytes (v : Value) (h : v.isBytes = false) :
    toWire v = encodeVal v := by
  cases v <;> simp_all [Value.isBytes, toWire]

/-- One `__rpc_calls__` record: `{"event": asyncio.Event(), "result": None}`.
`eventSet` is whether `event.set()` has been called; `result` holds the
reply dict stored by `_client_handle_rpc_call` (its `_data_` bytes). -/
structure RpcCall where
  eventSet : Bool
  result : Option (List Nat)
deriving DecidableEq, Repr

/-- A message arriving on the rpc client channel: a dict with an optional
`_sn_` field and the `_data_` bytes. -/
structure RpcMsg where
  sn : Option Nat
  data : List Nat
deriving DecidableEq, Repr

/-- The argument object of `rpc_send`: carries `sn`, `timeout` and an
opaque payload (the rest of the pickled object). -/
structure Remote where
  sn : Nat
  timeout : Nat
  payload : List Nat
deriving DecidableEq, Repr

inductive StartErr where
  | configError
deriving DecidableEq, Repr

inductive StopErr where
  | closeFailed
deriving DecidableEq, Repr

inductive RpcErr where
  | timeout
  | decodeFailed
deriving DecidableEq, Repr

/-- The module-level mutable globals of emit.py, plus three observation
traces: `published` (redis publishes), `listeners` (one entry per
`asyncio.create_task(_listen(event))`), `calls` (handler invocations). -/
structure EmitState where
  registry : List (String × Binding)
  started : Bool
  engine : Engine
  heartBeat : Nat
  startServer : Bool
  dsn : Option String
  pubConn : Option Unit
  subConn : Option Unit
  rpcCalls : List (Nat × RpcCall)
  published : List (String × List Nat)
  listeners : List String
  calls : List (Nat × Value)
deriving DecidableEq, Repr

/-- The state at module import time. -/
def initState : EmitState :=
  { registry := [], started := false, engine := .inProcess, heartBeat := 0,
    startServer := false, dsn := none, pubConn := none, subConn := none,
    rpcCalls := [], published := [], listeners := [], calls := [] }

/-- Python `set.add` on the handler set (membership unique, order kept). -/
def insertHandler (h : Nat) (l : List Nat) : List Nat :=
  if h ∈ l then l else l ++ [h]

/-- The handler set currently registered for a key:
`_registry.get(name, {}).get("handlers", [])`. -/
def handlersOf (s : EmitState) (k : String) : List Nat :=
  ((lookupA k s.registry).map Binding.handlers).getD []

/-- emit.py `_bind`: if the entry has no queue yet, create one (a fresh
`asyncio.Queue` in-process, a redis subscription otherwise), else skip;
then unconditionally `asyncio.create_task(_listen(event))`.  The source
would fail on a key absent from the registry (`item.get` on `None`); that
case is unreachable from the public operations and left as the identity. -/
def _bind (event : String) (s : EmitState) : EmitState :=
  match lookupA event s.registry with
  | none => s
  | some item =>
    let item' :=
      if s.engine = Engine.inProcess then
        match item.getQueue with
        | none => { item with queue := some (some (.localQueue [])) }
        | some _ => item
      else
        match item.getQueue with
        | none => { item with queue := some (some .pubsub) }
        | some _ => item
    let s' := { s with registry := setA event item' s.registry }
    { s' with listeners := s'.listeners ++ [event] }

/-- emit.py `register`, registry part: `item = _registry.get(event,
{"handlers": set()})`, `item["handlers"].add(handler)`,
`_registry[event] = item`. -/
def registryAdd (key : String) (h : Nat) (reg : List (String × Binding)) : List (String × Binding) :=
  let item := (lookupA key reg).getD ⟨[], none⟩
  setA key { item with handlers := insertHandler h item.handlers } reg

/-- emit.py `register`: compose the key, add the handler to the (possibly
fresh) entry, and when the bus is already started schedule `_bind` (the
spawned task is run to completion here, as the cooperative scheduler
eventually does). -/
def register (event : String) (h : Nat) (exchange : String) (s : EmitState) : EmitState :=
  let key := exchange ++ "/" ++ event
  let s' := { s with registry := registryAdd key h s.registry }
  if s'.started then _bind key s' else s'

/-- emit.py `async_register`: same body as `register` except that `_bind`
is awaited instead of scheduled; in the sequential model the two coincide. -/
def async_register (event : String) (h : Nat) (exchange : String) (s : EmitState) : EmitState :=
  register event h exchange s

/-- emit.py `unsubscribe`: warn-and-return on an unknown key; otherwise
remove the handler (`set.remove`, the `KeyError` for an absent handler is
caught and logged) and write the set back. -/
def unsubscribe (channel : String) (h : Nat) (exchange : String) (s : EmitState) : EmitState :=
  let key := exchange ++ "/" ++ channel
  match lookupA key s.registry with
  | none => s
  | some item =>
    { s with registry := setA key { item with handlers := item.handlers.erase h } s.registry }

/-- Handler ids of the internal handlers registered by `start`. -/
def clientHandlerId : Nat := 0

def serverHandlerId : Nat := 1

def heartbeatHandlerId : Nat := 2

/-- emit.py `emit`: drop the message when the bus is not started; compose
the key; pickle non-bytes payloads; in-process, enqueue on the bound queue
(warn-and-return when there is none), under redis publish on the pub
connection. -/
def emit (channel : String) (message : Value) (exchange : String) (s : EmitState) : EmitState :=
  if s.started = false then s
  else
    let key := exchange ++ "/" ++ channel
    let wire := toWire message
    match s.engine with
    | .inProcess =>
      match lookupA key s.registry with
      | none => s
      | some item =>
        match item.getQueue with
        | some (.localQueue msgs) =>
          { s with registry := setA key { item with queue := some (some (.localQueue (msgs ++ [wire]))) } s.registry }
        | some .pubsub => s
        | none => s
    | .redis =>
      { s with published := s.published ++ [(key, wire)] }

/-- emit.py `start`, lines 222-223: `for channel in _registry.keys(): await
_bind(channel)`. -/
def bindAll (s : EmitState) : EmitState :=
  (s.registry.map Prod.fst).foldl (fun st k => _bind k st) s

/-- emit.py `start`.  `now` stands for `time.time()` at the heartbeat
emit.  The bound `aioredis.from_url` calls are modelled as always
producing a connection (the broker client is an external collaborator).
Returns the new state and the raised error, if any (`SyntaxError` when the
engine is REDIS and no dsn was passed). -/
def start (engine : Engine) (startServer : Bool) (heartBeat : Nat)
    (dsn : Option String) (now : Nat) (s : EmitState) : EmitState × Option StartErr :=
  if s.started then (s, none)
  else
    let s1 := { s with engine := engine, heartBeat := heartBeat,
                       startServer := startServer, dsn := dsn }
    match engine with
    | .redis =>
      match dsn with
      | none => (s1, some .configError)
      | some _ =>
        let s2 := async_register "__emit_rpc_client_channel__" clientHandlerId "" s1
        let s3 := if startServer then async_register "__emit_rpc_server_channel__" serverHandlerId "" s2 else s2
        let s4 := { s3 with pubConn := some (), subConn := some () }
        let s5 := if heartBeat > 0 then async_register "heartbeat" heartbeatHandlerId "" s4 else s4
        let s6 := bindAll s5
        let s7 := if heartBeat > 0 then emit "heartbeat" (.vhb now) "" s6 else s6
        ({ s7 with started := true }, none)
    | .inProcess =>
      let s2 := async_register "__emit_rpc_client_channel__" clientHandlerId "" s1
      let s3 := async_register "__emit_rpc_server_channel__" serverHandlerId "" s2
      let s4 := bindAll s3
      ({ s4 with started := true }, none)

/-- emit.py `_listen`, inner `get_and_invoke`: read the live handler set
for the key, discard the message if it is empty, otherwise invoke every
handler with the decoded message (recorded in the `calls` trace). -/
def get_and_invoke (name : String) (message : Value) (s : EmitState) : EmitState :=
  let handlers := handlersOf s name
  if handlers.isEmpty then s
  else { s with calls := s.calls ++ handlers.map (fun h => (h, message)) }

/-- One iteration of the listener loop body (shared by the in-process
`while True` loop and the redis `async for` loop): unpickle the raw
message and fan out; the whole body is inside `try/except Exception`, so a
failing `pickle.loads` only drops the message. -/
def listenBody (event : String) (raw : List Nat) (s : EmitState) : EmitState :=
  match decodeVal raw with
  | some v => get_and_invoke event v s
  | none => s

/-- The listener loop of `_listen` run over a stream of received raw
messages. -/
def listenLoop (event : String) (raws : List (List Nat)) (s : EmitState) : EmitState :=
  match raws with
  | [] => s
  | raw :: rest => listenLoop event rest (listenBody event raw s)

/-- Run the in-process listener until the bound local queue is drained:
each queued raw message is taken by `queue.get`, processed by the loop
body, and acknowledged. -/
def drainLocalQueue (event : String) (s : EmitState) : EmitState :=
  match lookupA event s.registry with
  | none => s
  | some item =>
    match item.getQueue with
    | some (.localQueue msgs) =>
      listenLoop event msgs
        { s with registry := setA event { item with queue := some (some (.localQueue [])) } s.registry }
    | _ => s

/-- emit.py `_client_handle_rpc_call`: ignore messages without `_sn_`;
when a pending record exists for the serial number, store the reply
(minus `_sn_`) as its result and set its event; otherwise log the message
as unsolicited and drop it. -/
def _client_handle_rpc_call (msg : RpcMsg) (s : EmitState) : EmitState :=
  match msg.sn with
  | none => s
  | some sn =>
    match lookupA sn s.rpcCalls with
    | some _ => { s with rpcCalls := setA sn ⟨true, some msg.data⟩ s.rpcCalls }
    | none => s

/-- The state after the first half of `rpc_send`: the pending record is
created under `remote.sn`, the pickled request is emitted on the rpc
server channel, and then the caller suspends; `arrivals` are the messages
`_client_handle_rpc_call` processes on the rpc client channel while the
caller waits. -/
def rpcWaitState (r : Remote) (arrivals : List RpcMsg) (s : EmitState) : EmitState :=
  arrivals.foldl (fun st m => _client_handle_rpc_call m st)
    (emit "__emit_rpc_server_channel__" (.vbytes (encodeVal (.vremote r.sn r.timeout r.payload))) ""
      { s with rpcCalls := setA r.sn ⟨false, none⟩ s.rpcCalls })

/-- emit.py `rpc_send`: create the pending record under `remote.sn`, emit
the pickled request on the rpc server channel, then suspend on
`asyncio.wait_for(event.wait(), remote.timeout)`; the wait times out
exactly when no processed arrival has set the record event.  On timeout
`TimeoutError` is raised; on resolution the stored result bytes are
unpickled and returned. -/
def rpc_send (r : Remote) (arrivals : List RpcMsg) (s : EmitState) : EmitState × Except RpcErr Value :=
  let s3 := rpcWaitState r arrivals s
  match lookupA r.sn s3.rpcCalls with
  | some rec0 =>
    if rec0.eventSet then
      match rec0.result with
      | some data =>
        match decodeVal data with
        | some v => (s3, Except.ok v)
        | none => (s3, Except.error RpcErr.decodeFailed)
      | none => (s3, Except.error RpcErr.decodeFailed)
    else (s3, Except.error RpcErr.timeout)
  | none => (s3, Except.error RpcErr.timeout)

/-- emit.py `stop`, redis branch, subscription loop: for every binding
whose dict has a "queue" key, close the pubsub if it is truthy
(`ok = false` makes such a close raise, which aborts the loop with the
already-processed prefix mutated and the failing binding untouched), then
set the queue to `None` and empty the handler set.  Returns the resulting
entries and whether the loop completed. -/
def closeSubBindings (ok : Bool) : List (String × Binding) → List (String × Binding) × Bool
  | [] => ([], true)
  | (k, b) :: rest =>
    match b.queue with
    | none =>
      let r := closeSubBindings ok rest
      ((k, b) :: r.1, r.2)
    | some (some _) =>
      if ok then
        let r := closeSubBindings ok rest
        ((k, { b with queue := some none, handlers := [] }) :: r.1, r.2)
      else ((k, b) :: rest, false)
    | some none =>
      let r := closeSubBindings ok rest
      ((k, { b with queue := some none, handlers := [] }) :: r.1, r.2)

/-- emit.py `stop`, redis branch after the publish connection: when a
subscribe connection exists, close every subscription and clear the
bindings, then close the subscribe connection itself (`subOk = false`
makes that close raise). -/
def stopSubPhase (subsOk subOk : Bool) (s : EmitState) : EmitState × Option StopErr :=
  match s.subConn with
  | none => (s, none)
  | some _ =>
    let r := closeSubBindings subsOk s.registry
    let s2 := { s with registry := r.1 }
    if r.2 then
      if subOk then ({ s2 with subConn := none }, none)
      else (s2, some StopErr.closeFailed)
    else (s2, some StopErr.closeFailed)

/-- emit.py `stop`: set `_started = False` first; under redis close the
publish connection (`pubOk = false` makes that close raise and propagate
immediately), then run the subscription teardown; in-process, set every
binding queue to `None` and empty every handler set.  There is no
`try/except` anywhere in the source `stop`, so a failing close propagates
to the caller and aborts the remaining teardown. -/
def stop (pubOk subsOk subOk : Bool) (s : EmitState) : EmitState × Option StopErr :=
  let s0 := { s with started := false }
  match s0.engine with
  | .redis =>
    match s0.pubConn with
    | some _ =>
      if pubOk then stopSubPhase subsOk subOk { s0 with pubConn := none }
      else (s0, some StopErr.closeFailed)
    | none => stopSubPhase subsOk subOk s0
  | .inProcess =>
    ({ s0 with registry := s0.registry.map (fun kb => (kb.1, { kb.2 with queue := some none, handlers := [] })) }, none)

/-! ## Claim theorems -/

/-- C10: for every channel name, payload and exchange, calling `emit`
while the bus is not started returns the state unchanged: nothing is
enqueued or published, and the registry and pending-call table are
untouched (emit.py lines 240-242 return before any effect). -/
theorem c10_emit_before_start_is_noop (ch : String) (v : Value) (ex : String)
    (s : EmitState) (h : s.started = false) : emit ch v ex s = s := by
  simp [emit, h]

theorem c10_witness : emit "x" Value.vnone "" initState = initState :=
  c10_emit_before_start_is_noop "x" Value.vnone "" initState rfl

/-- C5: calling `start` with the REDIS engine and no dsn on a
non-started bus raises the configuration error (`SyntaxError`) to the
caller before any connection attempt: no connection is opened, the bus
does not become started, and the registry is untouched (emit.py lines
202-204 raise before `aioredis.from_url`). -/
theorem c5_start_redis_without_dsn (s : EmitState) (sv : Bool) (hb now : Nat)
    (h : s.started = false) :
    (start .redis sv hb none now s).2 = some StartErr.configError ∧
    (start .redis sv hb none now s).1.pubConn = s.pubConn ∧
    (start .redis sv hb none now s).1.subConn = s.subConn ∧
    (start .redis sv hb none now s).1.started = false ∧
    (start .redis sv hb none now s).1.registry = s.registry := by
  simp [start, h]

theorem c5_witness :
    (start .redis false 3 none 0 initState).2 = some StartErr.configError ∧
    (start .redis false 3 none 0 initState).1.pubConn = initState.pubConn ∧
    (start .redis false 3 none 0 initState).1.subConn = initState.subConn ∧
    (start .redis false 3 none 0 initState).1.started = false ∧
    (start .redis false 3 none 0 initState).1.registry = initState.registry :=
  c5_start_redis_without_dsn initState false 3 0 rfl

/-- C7: a poison message never kills a listener: when `pickle.loads`
fails on a received raw message, the `try/except` of `_listen` drops the
message and the loop goes on to process the remaining messages exactly as
if the poison message had never arrived; the failure is not propagated
(the loop function is total). -/
theorem c7_poison_message_dropped_loop_continues (event : String)
    (bad : List Nat) (rest : List (List Nat)) (s : EmitState)
    (h : decodeVal bad = none) :
    listenLoop event (bad :: rest) s = listenLoop event rest s := by
  simp [listenLoop, listenBody, h]

theorem c7_witness :
    listenLoop "/e" [[9], [0]] initState = listenLoop "/e" [[0]] initState :=
  c7_poison_message_dropped_loop_continues "/e" [9] [[0]] initState rfl

/-- C1: starting the REDIS engine with `heart_beat = 5` and a dsn
succeeds and marks the bus started, yet publishes nothing at all — in
particular no heartbeat message.  The `emit("heartbeat", ...)` at
emit.py line 226 runs while `_started` is still `False` (it is set on
line 228), so emit drops the message and the first heartbeat is never
published, contradicting the specified behaviour. -/
theorem c1_first_heartbeat_never_published :
    (start .redis false 5 (some "redis://localhost") 100 initState).2 = none ∧
    (start .redis false 5 (some "redis://localhost") 100 initState).1.started = true ∧
    (start .redis false 5 (some "redis://localhost") 100 initState).1.published = [] := by
  decide

theorem emit_rpcCalls (ch : String) (v : Value) (ex : String) (s : EmitState) :
    (emit ch v ex s).rpcCalls = s.rpcCalls := by
  simp only [emit]
  split
  · rfl
  · split
    · split
      · rfl
      · split <;> rfl
    · rfl

theorem handle_rpc_preserves_other (m : RpcMsg) (n : Nat) (st : EmitState)
    (h : m.sn ≠ some n) :
    lookupA n (_client_handle_rpc_call m st).rpcCalls = lookupA n st.rpcCalls := by
  unfold _client_handle_rpc_call
  cases hm : m.sn with
  | none => rfl
  | some sn =>
    have hne : ¬n = sn := by
      intro he
      exact h (by rw [hm, he])
    cases hl : lookupA sn st.rpcCalls with
    | none => simp [hl]
    | some rec1 => simp [hl, lookupA_setA, hne]

theorem fold_handle_preserves (arrivals : List RpcMsg) (n : Nat) (st : EmitState)
    (h : ∀ m ∈ arrivals, m.sn ≠ some n) :
    lookupA n ((arrivals.foldl (fun st m => _client_handle_rpc_call m st) st).rpcCalls) =
      lookupA n st.rpcCalls := by
  induction arrivals generalizing st with
  | nil => rfl
  | cons m rest ih =>
    have h1 : m.sn ≠ some n := h m (List.mem_cons_self m rest)
    have h2 : ∀ m' ∈ rest, m'.sn ≠ some n := fun m' hm' => h m' (List.mem_cons_of_mem m hm')
    calc lookupA n ((List.foldl (fun st m => _client_handle_rpc_call m st) st (m :: rest)).rpcCalls)
        = lookupA n ((List.foldl (fun st m => _client_handle_rpc_call m st) (_client_handle_rpc_call m st) rest).rpcCalls) := rfl
      _ = lookupA n (_client_handle_rpc_call m st).rpcCalls := ih (_client_handle_rpc_call m st) h2
      _ = lookupA n st.rpcCalls := handle_rpc_preserves_other m n st h1

/-- The state sitting in front of the C2 and C6 scenarios: a started
in-process bus. -/
def sRpc : EmitState := { initState with started := true, engine := .inProcess }

instance : DecidableEq (Except RpcErr Value) := fun a b =>
  match a, b with
  | .ok x, .ok y => if h : x = y then .isTrue (by rw [h]) else .isFalse (by simp [h])
  | .error x, .error y => if h : x = y then .isTrue (by rw [h]) else .isFalse (by simp [h])
  | .ok _, .error _ => .isFalse (by simp)
  | .error _, .ok _ => .isFalse (by simp)

/-- C2 counterexample: an rpc_send with serial number 1 that receives no
reply before the deadline fails with a timeout — yet the pending record
keyed by 1 is still in the pending-call table afterwards (nothing in
`rpc_send` ever deletes it), and a late reply carrying the same id finds
the record and resolves it instead of being discarded as unsolicited. -/
theorem c2_counterexample :
    (rpc_send ⟨1, 5, []⟩ [] sRpc).2 = Except.error RpcErr.timeout ∧
    lookupA 1 (rpc_send ⟨1, 5, []⟩ [] sRpc).1.rpcCalls = some ⟨false, none⟩ ∧
    lookupA 1 (_client_handle_rpc_call ⟨some 1, [0]⟩ (rpc_send ⟨1, 5, []⟩ [] sRpc).1).rpcCalls
      = some ⟨true, some [0]⟩ := by
  decide

/-- C2 amended: when no reply carrying the serial number of the pending
call arrives before the deadline, `rpc_send` fails with a Timeout — but
the pending record is NOT removed: it survives in the pending-call table
untouched, so a late reply carrying the same id finds the record and
stores its result (it is not discarded as unsolicited); and on successful
resolution the record is likewise left in the table (marked resolved)
rather than removed. -/
theorem c2_amended_pending_record_persists (r : Remote) (arrivals : List RpcMsg)
    (s : EmitState) (hno : ∀ m ∈ arrivals, m.sn ≠ some r.sn) :
    (rpc_send r arrivals s).2 = Except.error RpcErr.timeout ∧
    lookupA r.sn (rpc_send r arrivals s).1.rpcCalls = some ⟨false, none⟩ ∧
    (∀ d, lookupA r.sn (_client_handle_rpc_call ⟨some r.sn, d⟩ (rpc_send r arrivals s).1).rpcCalls
        = some ⟨true, some d⟩) ∧
    (∀ v, (rpc_send r [⟨some r.sn, encodeVal v⟩] s).2 = Except.ok v ∧
        lookupA r.sn (rpc_send r [⟨some r.sn, encodeVal v⟩] s).1.rpcCalls
          = some ⟨true, some (encodeVal v)⟩) := by
  have h3 : lookupA r.sn (rpcWaitState r arrivals s).rpcCalls = some ⟨false, none⟩ := by
    unfold rpcWaitState
    rw [fold_handle_preserves arrivals r.sn _ hno, emit_rpcCalls]
    simp [lookupA_setA]
  have hrun : rpc_send r arrivals s = (rpcWaitState r arrivals s, Except.error RpcErr.timeout) := by
    simp only [rpc_send, h3]
    rfl
  have h5 : ∀ d : List Nat, _client_handle_rpc_call ⟨some r.sn, d⟩ (rpcWaitState r arrivals s)
      = { rpcWaitState r arrivals s with
          rpcCalls := setA r.sn ⟨true, some d⟩ (rpcWaitState r arrivals s).rpcCalls } := by
    intro d
    unfold _client_handle_rpc_call
    dsimp only
    rw [h3]
  refine ⟨by rw [hrun], by rw [hrun]; exact h3, ?_, ?_⟩
  · intro d
    rw [hrun]
    dsimp only
    rw [h5 d]
    simp [lookupA_setA]
  · intro v
    have hl2 : lookupA r.sn
        (emit "__emit_rpc_server_channel__" (.vbytes (encodeVal (.vremote r.sn r.timeout r.payload))) ""
          { s with rpcCalls := setA r.sn ⟨false, none⟩ s.rpcCalls }).rpcCalls
        = some ⟨false, none⟩ := by
      rw [emit_rpcCalls]
      simp [lookupA_setA]
    have h4 : lookupA r.sn (rpcWaitState r [⟨some r.sn, encodeVal v⟩] s).rpcCalls
        = some ⟨true, some (encodeVal v)⟩ := by
      show lookupA r.sn (_client_handle_rpc_call ⟨some r.sn, encodeVal v⟩
        (emit "__emit_rpc_server_channel__" (.vbytes (encodeVal (.vremote r.sn r.timeout r.payload))) ""
          { s with rpcCalls := setA r.sn ⟨false, none⟩ s.rpcCalls })).rpcCalls
        = some ⟨true, some (encodeVal v)⟩
      unfold _client_handle_rpc_call
      dsimp only
      rw [hl2]
      simp [lookupA_setA]
    have hrun2 : rpc_send r [⟨some r.sn, encodeVal v⟩] s
        = (rpcWaitState r [⟨some r.sn, encodeVal v⟩] s, Except.ok v) := by
      simp only [rpc_send, h4, decodeVal_encodeVal]
      rfl
    rw [hrun2]
    exact ⟨rfl, h4⟩

theorem c2_amended_witness :
    (rpc_send ⟨1, 5, []⟩ [] sRpc).2 = Except.error RpcErr.timeout ∧
    lookupA 1 (rpc_send ⟨1, 5, []⟩ [] sRpc).1.rpcCalls = some ⟨false, none⟩ ∧
    lookupA 1 (_client_handle_rpc_call ⟨some 1, [3, 7]⟩ (rpc_send ⟨1, 5, []⟩ [] sRpc).1).rpcCalls
      = some ⟨true, some [3, 7]⟩ ∧
    (rpc_send ⟨1, 5, []⟩ [⟨some 1, encodeVal (Value.vnat 8)⟩] sRpc).2 = Except.ok (Value.vnat 8) :=
  have h := c2_amended_pending_record_persists ⟨1, 5, []⟩ [] sRpc (by intro m hm; simp at hm)
  ⟨h.1, h.2.1, h.2.2.1 [3, 7], (h.2.2.2 (Value.vnat 8)).1⟩

theorem closeSubBindings_ok (l : List (String × Binding)) :
    (closeSubBindings true l).2 = true := by
  induction l with
  | nil => rfl
  | cons kb rest ih =>
    obtain ⟨k, b⟩ := kb
    cases hq : b.queue with
    | none => simp [closeSubBindings, hq, ih]
    | some qv => cases qv <;> simp [closeSubBindings, hq, ih]

theorem stopSubPhase_started (a b : Bool) (s : EmitState) :
    (stopSubPhase a b s).1.started = s.started := by
  unfold stopSubPhase
  cases hc : s.subConn with
  | none => rfl
  | some u =>
    by_cases hr : (closeSubBindings a s.registry).2
    · by_cases hb : b <;> simp [hr, hb]
    · simp [hr]

theorem stopSubPhase_ok (s : EmitState) : (stopSubPhase true true s).2 = none := by
  unfold stopSubPhase
  split
  · rfl
  · simp [closeSubBindings_ok]

/-- The concrete started redis state used to exhibit the `stop` failure
behaviours: one bound event key, both connections open. -/
def sC4 : EmitState :=
  { initState with
      started := true
      engine := .redis
      pubConn := some ()
      subConn := some ()
      registry := [("/e", ⟨[10], some (some .pubsub)⟩)] }

/-- C4 counterexample: stopping the started redis bus `sC4` while the
close of the publish connection fails propagates the failure to the
caller (there is no `try/except` in `stop`), and the rest of the teardown
is skipped: the binding is neither closed nor cleared. -/
theorem c4_counterexample :
    (stop false true true sC4).2 = some StopErr.closeFailed ∧
    (stop false true true sC4).1.registry = sC4.registry := by
  decide

/-- C4 amended: `stop` sets `_started = False` before any close, so the
bus always reaches the stopped state — but teardown is not best-effort:
when the close of a connection or subscription fails, the exception
propagates to the caller of `stop` and the remaining teardown is
skipped; only when every close succeeds does `stop` return without
error. -/
theorem c4_amended_stop_reaches_stopped_but_close_failures_propagate
    (pubOk subsOk subOk : Bool) (s : EmitState) :
    (stop pubOk subsOk subOk s).1.started = false ∧
    (pubOk = true → subsOk = true → subOk = true →
      (stop pubOk subsOk subOk s).2 = none) := by
  constructor
  · unfold stop
    dsimp only
    cases he : s.engine with
    | inProcess => rfl
    | redis =>
      cases hp : s.pubConn with
      | none => rw [stopSubPhase_started]
      | some u =>
        by_cases hb : pubOk
        · simp only [hb, if_true]
          rw [stopSubPhase_started]
        · simp [hb]
  · intro h1 h2 h3
    subst h1; subst h2; subst h3
    unfold stop
    dsimp only
    cases he : s.engine with
    | inProcess => rfl
    | redis =>
      cases hp : s.pubConn with
      | none => exact stopSubPhase_ok _
      | some u =>
        simp only [if_true]
        exact stopSubPhase_ok _

theorem c4_amended_witness :
    (stop true true true sC4).1.started = false ∧ (stop true true true sC4).2 = none :=
  ⟨(c4_amended_stop_reaches_stopped_but_close_failures_propagate true true true sC4).1,
   (c4_amended_stop_reaches_stopped_but_close_failures_propagate true true true sC4).2 rfl rfl rfl⟩

/-- The state reached by the claim C3 scenario: register a handler, start
the in-process bus, then register a second handler for the same event key
while started. -/
def sC3 : EmitState :=
  register "e" 11 "" (start .inProcess false 0 none 0 (register "e" 10 "" initState)).1

/-- C3 counterexample: the sequence register / start / register (public
operations only) leaves TWO listener tasks for the key "/e" — the second
`_bind` triggered by the post-start registration skips the existing queue
but still runs `asyncio.create_task(_listen(event))` (emit.py line 112),
so the claimed bound of at most one listener task per event key is false. -/
theorem c3_counterexample : ¬ sC3.listeners.count "/e" ≤ 1 := by
  decide

/-- C3 amended: invoking `_bind` again while the Binding of the key
already has a channel creates no second channel and changes no state at
all — except that it spawns one more listener task for that key every
time: the listener tasks per key grow with each bind of an already-bound
key instead of staying at one. -/
theorem c3_amended_rebind_keeps_channel_but_adds_listener (s : EmitState)
    (k : String) (item : Binding) (q : Channel)
    (hl : lookupA k s.registry = some item) (hq : item.getQueue = some q) :
    _bind k s = { s with listeners := s.listeners ++ [k] } := by
  unfold _bind
  rw [hl]
  have hset := setA_self k item s.registry hl
  cases s.engine <;> simp [hq, hset]

/-- A started in-process state whose key "/e" is bound: used to witness
the amended C3 and C9 theorems. -/
def sBound : EmitState :=
  { initState with
      started := true
      engine := .inProcess
      registry := [("/e", ⟨[10], some (some (.localQueue []))⟩)] }

theorem c3_amended_witness :
    _bind "/e" sBound = { sBound with listeners := sBound.listeners ++ ["/e"] } :=
  c3_amended_rebind_keeps_channel_but_adds_listener sBound "/e"
    ⟨[10], some (some (.localQueue []))⟩ (.localQueue []) (by decide) rfl

/-- C9: `unsubscribe(eventKey, handler)` removes only that handler from
the handler set of the key: the channel of the key is unchanged, every
other registry entry is unchanged, and the rest of the state (started
flag, pending-call table) is untouched; unsubscribing an unregistered
key, or a handler that is not in the set, is a logged no-op that leaves
the whole state unchanged and never fails (the function is total). -/
theorem c9_unsubscribe_removes_only_that_handler (s : EmitState)
    (ch ex : String) (h : Nat) :
    (lookupA (ex ++ "/" ++ ch) (unsubscribe ch h ex s).registry).map Binding.queue
      = (lookupA (ex ++ "/" ++ ch) s.registry).map Binding.queue ∧
    handlersOf (unsubscribe ch h ex s) (ex ++ "/" ++ ch)
      = (handlersOf s (ex ++ "/" ++ ch)).erase h ∧
    (∀ k', k' ≠ ex ++ "/" ++ ch →
      lookupA k' (unsubscribe ch h ex s).registry = lookupA k' s.registry) ∧
    (unsubscribe ch h ex s).started = s.started ∧
    (unsubscribe ch h ex s).rpcCalls = s.rpcCalls ∧
    (lookupA (ex ++ "/" ++ ch) s.registry = none → unsubscribe ch h ex s = s) ∧
    (h ∉ handlersOf s (ex ++ "/" ++ ch) → unsubscribe ch h ex s = s) := by
  cases hl : lookupA (ex ++ "/" ++ ch) s.registry with
  | none =>
    have hid : unsubscribe ch h ex s = s := by
      simp only [unsubscribe]
      rw [hl]
    refine ⟨by rw [hid, hl], ?_, fun k' _ => by rw [hid], by rw [hid], by rw [hid],
      fun _ => hid, fun _ => hid⟩
    rw [hid]
    unfold handlersOf
    rw [hl]
    rfl
  | some item =>
    have hu : unsubscribe ch h ex s =
        { s with registry := setA (ex ++ "/" ++ ch) ⟨item.handlers.erase h, item.queue⟩ s.registry } := by
      simp only [unsubscribe]
      rw [hl]
    refine ⟨?_, ?_, ?_, by rw [hu], by rw [hu], ?_, ?_⟩
    · rw [hu]
      simp [lookupA_setA]
    · rw [hu]
      unfold handlersOf
      simp [lookupA_setA, hl]
    · intro k' hk
      rw [hu]
      simp only [lookupA_setA, if_neg hk]
    · intro habs
      exact Option.noConfusion habs
    · intro hnm
      have hh : h ∉ item.handlers := by
        unfold handlersOf at hnm
        rw [hl] at hnm
        exact hnm
      have he : item.handlers.erase h = item.handlers := List.erase_of_not_mem hh
      rw [hu, he]
      have hb : (⟨item.handlers, item.queue⟩ : Binding) = item := rfl
      rw [hb, setA_self _ _ _ hl]

theorem c9_witness :
    handlersOf (unsubscribe "e" 10 "" sBound) ("" ++ "/" ++ "e")
      = (handlersOf sBound ("" ++ "/" ++ "e")).erase 10 ∧
    (lookupA ("" ++ "/" ++ "e") (unsubscribe "e" 10 "" sBound).registry).map Binding.queue
      = (lookupA ("" ++ "/" ++ "e") sBound.registry).map Binding.queue ∧
    unsubscribe "x" 10 "" sBound = sBound :=
  ⟨(c9_unsubscribe_removes_only_that_handler sBound "e" "" 10).2.1,
   (c9_unsubscribe_removes_only_that_handler sBound "e" "" 10).1,
   (c9_unsubscribe_removes_only_that_handler sBound "x" "" 10).2.2.2.2.2.1 (by decide)⟩

theorem handlers_getD (o : Option Binding) :
    (o.getD ⟨[], none⟩).handlers = (o.map Binding.handlers).getD [] := by
  cases o <;> rfl

theorem lookupA_handlers_setA (k k' : String) (item item' : Binding)
    (l : List (String × Binding)) (hl : lookupA k l = some item)
    (hh : item'.handlers = item.handlers) :
    ((lookupA k' (setA k item' l)).map Binding.handlers).getD []
      = ((lookupA k' l).map Binding.handlers).getD [] := by
  rw [lookupA_setA]
  by_cases hk : k' = k
  · subst hk
    rw [if_pos rfl, hl]
    simp [hh]
  · rw [if_neg hk]

theorem handlersOf_bind (k : String) (s : EmitState) (k' : String) :
    handlersOf (_bind k s) k' = handlersOf s k' := by
  unfold _bind
  cases hl : lookupA k s.registry with
  | none => rfl
  | some item =>
    unfold handlersOf
    dsimp only
    by_cases heng : s.engine = Engine.inProcess
    · rw [if_pos heng]
      cases hq : item.getQueue
      all_goals exact lookupA_handlers_setA k k' item _ s.registry hl rfl
    · rw [if_neg heng]
      cases hq : item.getQueue
      all_goals exact lookupA_handlers_setA k k' item _ s.registry hl rfl

theorem lookupA_registryAdd (key : String) (h : Nat)
    (reg : List (String × Binding)) (k' : String) :
    ((lookupA k' (registryAdd key h reg)).map Binding.handlers).getD []
      = if k' = key then insertHandler h (((lookupA key reg).map Binding.handlers).getD [])
        else ((lookupA k' reg).map Binding.handlers).getD [] := by
  unfold registryAdd
  dsimp only
  rw [lookupA_setA]
  by_cases hk : k' = key
  · subst hk
    rw [if_pos rfl, if_pos rfl]
    simp [handlers_getD]
  · rw [if_neg hk, if_neg hk]

theorem handlersOf_register (e : String) (h : Nat) (ex : String) (s : EmitState)
    (k' : String) :
    handlersOf (register e h ex s) k' =
      if k' = ex ++ "/" ++ e then insertHandler h (handlersOf s (ex ++ "/" ++ e))
      else handlersOf s k' := by
  unfold register
  dsimp only
  split
  · rw [handlersOf_bind]
    unfold handlersOf
    exact lookupA_registryAdd (ex ++ "/" ++ e) h s.registry k'
  · unfold handlersOf
    exact lookupA_registryAdd (ex ++ "/" ++ e) h s.registry k'

theorem insertHandler_mem (h : Nat) (l : List Nat) : h ∈ insertHandler h l := by
  unfold insertHandler
  split
  · assumption
  · simp

theorem insertHandler_idem (h : Nat) (l : List Nat) :
    insertHandler h (insertHandler h l) = insertHandler h l := by
  unfold insertHandler
  by_cases hm : h ∈ l <;> simp [hm]

theorem insertHandler_count (h : Nat) (l : List Nat) (hnd : l.Nodup) :
    (insertHandler h l).count h = 1 := by
  unfold insertHandler
  by_cases hm : h ∈ l
  · rw [if_pos hm]
    exact List.count_eq_one_of_mem hnd hm
  · rw [if_neg hm]
    rw [List.count_append]
    rw [List.count_eq_zero.mpr hm]
    simp

theorem count_map_pair (l : List Nat) (h : Nat) (v : Value) :
    (l.map (fun g => (g, v))).count (h, v) = l.count h := by
  induction l with
  | nil => rfl
  | cons a t ih =>
    simp only [List.map_cons, List.count_cons, ih, Prod.mk.injEq]
    by_cases ha : a = h <;> simp [ha]

/-- C8: registration has set semantics and is idempotent: registering the
same handler for the same key twice leaves every handler set of the
registry equal to registering it once; after one registration (from a
state whose handler set for the key is duplicate-free) the handler occurs
exactly once in the set, so one listener fan-out for a delivered message
invokes every member of the live set once — in particular that handler is
invoked exactly once per message. -/
theorem c8_register_idempotent_set_semantics (s : EmitState) (e : String)
    (h : Nat) (ex : String) (v : Value)
    (hnd : (handlersOf s (ex ++ "/" ++ e)).Nodup) :
    (∀ k', handlersOf (register e h ex (register e h ex s)) k'
        = handlersOf (register e h ex s) k') ∧
    (handlersOf (register e h ex s) (ex ++ "/" ++ e)).count h = 1 ∧
    (get_and_invoke (ex ++ "/" ++ e) v (register e h ex s)).calls
      = (register e h ex s).calls
        ++ (handlersOf (register e h ex s) (ex ++ "/" ++ e)).map (fun g => (g, v)) ∧
    ((handlersOf (register e h ex s) (ex ++ "/" ++ e)).map (fun g => (g, v))).count (h, v) = 1 := by
  have hreg : handlersOf (register e h ex s) (ex ++ "/" ++ e)
      = insertHandler h (handlersOf s (ex ++ "/" ++ e)) := by
    rw [handlersOf_register, if_pos rfl]
  refine ⟨?_, ?_, ?_, ?_⟩
  · intro k'
    rw [handlersOf_register e h ex (register e h ex s) k', handlersOf_register e h ex s k']
    by_cases hk : k' = ex ++ "/" ++ e
    · subst hk
      simp [hreg, insertHandler_idem]
    · simp [hk]
  · rw [hreg]
    exact insertHandler_count h _ hnd
  · unfold get_and_invoke
    have hne : handlersOf (register e h ex s) (ex ++ "/" ++ e) ≠ [] := by
      rw [hreg]
      exact List.ne_nil_of_mem (insertHandler_mem h _)
    rw [if_neg (by simpa [List.isEmpty_iff] using hne)]
  · rw [count_map_pair, hreg]
    exact insertHandler_count h _ hnd

theorem c8_witness :
    (handlersOf (register "e" 10 "" (register "e" 10 "" initState)) ("" ++ "/" ++ "e")
      = handlersOf (register "e" 10 "" initState) ("" ++ "/" ++ "e")) ∧
    (handlersOf (register "e" 10 "" initState) ("" ++ "/" ++ "e")).count 10 = 1 ∧
    ((handlersOf (register "e" 10 "" initState) ("" ++ "/" ++ "e")).map
      (fun g => (g, Value.vnone))).count (10, Value.vnone) = 1 :=
  ⟨(c8_register_idempotent_set_semantics initState "e" 10 "" Value.vnone (by decide)).1 ("" ++ "/" ++ "e"),
   (c8_register_idempotent_set_semantics initState "e" 10 "" Value.vnone (by decide)).2.1,
   (c8_register_idempotent_set_semantics initState "e" 10 "" Value.vnone (by decide)).2.2.2⟩

/-- Proof-side abbreviation: the state with one registry entry replaced. -/
def setRegistry (key : String) (b : Binding) (s : EmitState) : EmitState :=
  { s with registry := setA key b s.registry }

theorem get_and_invoke_calls (name : String) (v : Value) (s : EmitState) :
    (get_and_invoke name v s).calls
      = s.calls ++ (handlersOf s name).map (fun g => (g, v)) := by
  unfold get_and_invoke
  dsimp only
  by_cases hemp : (handlersOf s name).isEmpty
  · rw [if_pos hemp]
    have hnil : handlersOf s name = [] := by simpa [List.isEmpty_iff] using hemp
    simp [hnil]
  · rw [if_neg hemp]

/-- C6 counterexample: emitting a `bytes` payload on a bound key of a
started in-process bus does not deliver that value to the handler: emit
passes the bytes through unpickled, the listener then fails to unpickle
them and drops the message, so no handler call at all is made — the
round-trip claimed for every value fails at `bytes` values. -/
theorem c6_counterexample :
    (drainLocalQueue ("" ++ "/" ++ "e") (emit "e" (.vbytes [7]) "" sBound)).calls = [] ∧
    ¬ ((drainLocalQueue ("" ++ "/" ++ "e") (emit "e" (.vbytes [7]) "" sBound)).calls
        = sBound.calls ++ (handlersOf sBound ("" ++ "/" ++ "e")).map (fun g => (g, Value.vbytes [7]))) := by
  decide

/-- C6 amended: the byte codec round-trips every NON-bytes payload: for
every non-bytes value passed to `emit` on a bound event key of a started
in-process bus, draining the queue makes each currently registered
handler receive a value equal to the one passed to `emit`.  A `bytes`
payload instead travels raw and the listener hands its handlers whatever
those bytes unpickle to (dropping the message when unpickling fails). -/
theorem c6_amended_roundtrip_for_non_bytes (s : EmitState) (ch ex : String)
    (v : Value) (item : Binding)
    (hs : s.started = true) (he : s.engine = Engine.inProcess)
    (hv : v.isBytes = false)
    (hl : lookupA (ex ++ "/" ++ ch) s.registry = some item)
    (hq : item.queue = some (some (Channel.localQueue []))) :
    (drainLocalQueue (ex ++ "/" ++ ch) (emit ch v ex s)).calls
      = s.calls ++ (handlersOf s (ex ++ "/" ++ ch)).map (fun g => (g, v)) := by
  have hgq : item.getQueue = some (Channel.localQueue []) := by
    simp [Binding.getQueue, hq]
  have hemit : emit ch v ex s
      = setRegistry (ex ++ "/" ++ ch) ⟨item.handlers, some (some (Channel.localQueue [toWire v]))⟩ s := by
    unfold emit setRegistry
    rw [if_neg (by simp [hs])]
    dsimp only
    rw [he]
    dsimp only
    rw [hl]
    dsimp only
    rw [hgq]
    rfl
  have hl2 : lookupA (ex ++ "/" ++ ch) (emit ch v ex s).registry
      = some ⟨item.handlers, some (some (Channel.localQueue [toWire v]))⟩ := by
    rw [hemit]
    unfold setRegistry
    dsimp only
    rw [lookupA_setA, if_pos rfl]
  have hdrain : drainLocalQueue (ex ++ "/" ++ ch) (emit ch v ex s)
      = listenLoop (ex ++ "/" ++ ch) [toWire v]
          (setRegistry (ex ++ "/" ++ ch) ⟨item.handlers, some (some (Channel.localQueue []))⟩ (emit ch v ex s)) := by
    unfold drainLocalQueue setRegistry
    rw [hl2]
    rfl
  rw [hdrain]
  show (listenBody (ex ++ "/" ++ ch) (toWire v)
      (setRegistry (ex ++ "/" ++ ch) ⟨item.handlers, some (some (Channel.localQueue []))⟩ (emit ch v ex s))).calls
    = s.calls ++ (handlersOf s (ex ++ "/" ++ ch)).map (fun g => (g, v))
  unfold listenBody
  rw [toWire_of_not_bytes v hv, decodeVal_encodeVal]
  rw [get_and_invoke_calls]
  have hcalls : (setRegistry (ex ++ "/" ++ ch)
      (⟨item.handlers, some (some (Channel.localQueue []))⟩ : Binding) (emit ch v ex s)).calls = s.calls := by
    unfold setRegistry
    rw [hemit]
    rfl
  have hhand : handlersOf (setRegistry (ex ++ "/" ++ ch)
      (⟨item.handlers, some (some (Channel.localQueue []))⟩ : Binding) (emit ch v ex s)) (ex ++ "/" ++ ch)
      = handlersOf s (ex ++ "/" ++ ch) := by
    unfold handlersOf setRegistry
    dsimp only
    rw [lookupA_setA, if_pos rfl, hl]
    rfl
  rw [hcalls, hhand]

theorem c6_amended_witness :
    (drainLocalQueue ("" ++ "/" ++ "e") (emit "e" (Value.vnat 42) "" sBound)).calls
      = sBound.calls ++ (handlersOf sBound ("" ++ "/" ++ "e")).map (fun g => (g, Value.vnat 42)) :=
  c6_amended_roundtrip_for_non_bytes sBound "e" "" (Value.vnat 42)
    ⟨[10], some (some (.localQueue []))⟩ rfl rfl rfl (by decide) rfl

end PyEmit
